import Mathlib

/-!
Shallow embedding of the liquidity aggregation and pooling-simulation engine
from src/app/liquidity-form.tsx (function calculateSummary, lines 512-720, and
the what-if interest-expense block, lines 1968-2003).

Modelling conventions:
* A JavaScript numeric field is modelled as `JsNum := Option ℚ`; `some q` is a
  value both of whose coercions (parseFloat and arithmetic coercion) yield the
  rational q, and `none` is a non-numeric value (NaN after coercion).
  NaN propagation of JS arithmetic is modelled by `jsAdd`, `jsMulQ`, `jsSubQ`;
  JS comparisons against NaN are false, modelled by `jsLeZero` and the match in
  `additionalBorrowingCost`.
* The JS object `newSummary.currencyTotals` (a string-keyed insertion-ordered
  dictionary) is modelled as an association list with unique keys; `ctUpdate`
  performs the upsert of lines 593-614 (update the existing binding in place,
  or append a fresh binding at the end).
* The floor `Math.max(0.1, ...)` applied to link values is abstracted as the
  parameter `fl` of `calculateSummaryF`; the engine itself is
  `calculateSummary := calculateSummaryF jsMax01`, and the instrumented variant
  with `fl := id` is used only to state that the floor does not leak into the
  accumulated metrics.
* The unused `conversionPath` field of the pooling rules and the `notes` field
  of the convertibility table are omitted: calculateSummary never reads them.
-/

abbrev JsNum := Option ℚ

/-- Coercion used by the aggregation pass, lines 578-581:
parseFloat(String(x)) with a fallback of 0 for NaN (the JS or-default). -/
def parseNum (x : JsNum) : ℚ := x.getD 0

/-- JS addition with NaN propagation. -/
def jsAdd : JsNum → JsNum → JsNum
  | some a, some b => some (a + b)
  | _, _ => none

/-- JS multiplication by a (numeric) constant, with NaN propagation. -/
def jsMulQ (x : JsNum) (r : ℚ) : JsNum := x.map (fun a => a * r)

/-- JS subtraction of a (numeric) constant, with NaN propagation. -/
def jsSubQ (x : JsNum) (q : ℚ) : JsNum := x.map (fun a => a - q)

/-- The guard of line 666: cashAmount <= 0 is false when cashAmount is NaN. -/
def jsLeZero : JsNum → Bool
  | some q => decide (q ≤ 0)
  | none => false

/-- Math.max(0.1, x), which returns NaN when x is NaN. -/
def jsMax01 (x : JsNum) : JsNum := x.map (fun q => max 0.1 q)

/-- JS reduce with + starting from the number 0, as on lines 1974-1975. -/
def jsSum (l : List JsNum) : JsNum := l.foldl jsAdd (some 0)

/-- The or-default of line 683: a missing (or zero) rate falls back to 1. -/
def jsOrOne : Option ℚ → ℚ
  | some r => if r = 0 then 1 else r
  | none => 1

/-- Borrowing tenor enum of the form schema, line 42. -/
inductive BorrowingTenor where
  | shortTerm
  | longTerm
  deriving DecidableEq, Repr

/-- One currency position of a client entry (currencyEntrySchema, lines 36-43). -/
structure CurrencyEntry where
  currencyCode : String
  cashAmount : JsNum
  cashInterestRate : JsNum
  borrowingAmount : JsNum
  borrowingInterestRate : JsNum
  borrowingTenor : BorrowingTenor
  deriving DecidableEq, Repr

/-- One client entry (clientEntrySchema, lines 46-50). -/
structure ClientEntry where
  clientName : String
  operatingCountry : String
  currencies : List CurrencyEntry
  deriving DecidableEq, Repr

/-- The three convertibility categories, line 97. -/
inductive ConvertibilityCategory where
  | restricted
  | partiallyConvertible
  | freelyConvertible
  deriving DecidableEq, Repr

/-- Country to convertibility category table, lines 79-95 (notes omitted). -/
def currencyConvertibility : String → Option ConvertibilityCategory
  | "Vietnam" => some .restricted
  | "India" => some .restricted
  | "Malaysia" => some .partiallyConvertible
  | "Indonesia" => some .partiallyConvertible
  | "Singapore" => some .freelyConvertible
  | "Hong Kong" => some .freelyConvertible
  | "Australia" => some .freelyConvertible
  | "China" => some .restricted
  | "Philippines" => some .partiallyConvertible
  | "Thailand" => some .partiallyConvertible
  | "United States" => some .freelyConvertible
  | "United Kingdom" => some .freelyConvertible
  | "Japan" => some .freelyConvertible
  | "South Korea" => some .freelyConvertible
  | "Taiwan" => some .partiallyConvertible
  | _ => none

/-- The FX rate table, lines 105-111. -/
def fxRates : String → String → Option ℚ
  | "USD", "EUR" => some 0.92
  | "USD", "SGD" => some 1.35
  | "USD", "MYR" => some 4.75
  | "USD", "INR" => some 83.25
  | "EUR", "USD" => some 1.09
  | "EUR", "SGD" => some 1.47
  | "EUR", "MYR" => some 5.17
  | "EUR", "INR" => some 90.73
  | "SGD", "USD" => some 0.74
  | "SGD", "EUR" => some 0.68
  | "SGD", "MYR" => some 3.52
  | "SGD", "INR" => some 61.67
  | "MYR", "USD" => some 0.21
  | "MYR", "EUR" => some 0.19
  | "MYR", "SGD" => some 0.28
  | "MYR", "INR" => some 17.52
  | "INR", "USD" => some 0.012
  | "INR", "EUR" => some 0.011
  | "INR", "SGD" => some 0.016
  | "INR", "MYR" => some 0.057
  | _, _ => none

/-- Per-category pooling rule, lines 114-119 (unused conversionPath omitted). -/
structure PoolingRule where
  canPool : Bool
  requiresConversion : Bool
  targetCurrency : Option String
  deriving DecidableEq, Repr

/-- Pooling configuration based on convertibility, lines 122-137. -/
def poolingRules : ConvertibilityCategory → PoolingRule
  | .restricted => { canPool := false, requiresConversion := false, targetCurrency := none }
  | .partiallyConvertible =>
      { canPool := true, requiresConversion := true, targetCurrency := some "USD" }
  | .freelyConvertible => { canPool := true, requiresConversion := false, targetCurrency := none }

/-- Per-currency row of a country summary (CurrencySummary, lines 61-66). -/
structure CurrencySummary where
  currencyCode : String
  totalCash : ℚ
  totalBorrowing : ℚ
  netPosition : ℚ
  deriving DecidableEq, Repr

/-- Per-country block of a client summary (CountrySummary, lines 68-71). -/
structure CountrySummary where
  country : String
  currencies : List CurrencySummary
  deriving DecidableEq, Repr

/-- Per-client summary (ClientSummary, lines 73-76). -/
structure ClientSummary where
  clientName : String
  countries : List CountrySummary
  deriving DecidableEq, Repr

/-- One value of the currencyTotals dictionary, lines 142-151. -/
structure CurrencyTotal where
  totalCash : ℚ
  totalBorrowing : ℚ
  netPosition : ℚ
  cashInterestRate : ℚ
  borrowingInterestRate : ℚ
  borrowingTenor : BorrowingTenor
  deriving DecidableEq, Repr

/-- One value of the convertibilityTotals record, lines 152-159. -/
structure ConvertibilityTotal where
  totalCash : ℚ
  totalBorrowing : ℚ
  netPosition : ℚ
  countries : List String
  deriving DecidableEq, Repr

/-- The convertibilityTotals record, keyed by the three categories. -/
structure ConvertibilityTotals where
  restricted : ConvertibilityTotal
  partiallyConvertible : ConvertibilityTotal
  freelyConvertible : ConvertibilityTotal
  deriving DecidableEq, Repr

/-- Field access of convertibilityTotals by category key. -/
def ConvertibilityTotals.get (t : ConvertibilityTotals) :
    ConvertibilityCategory → ConvertibilityTotal
  | .restricted => t.restricted
  | .partiallyConvertible => t.partiallyConvertible
  | .freelyConvertible => t.freelyConvertible

/-- In-place update of one category field of convertibilityTotals. -/
def ConvertibilityTotals.update (t : ConvertibilityTotals) (c : ConvertibilityCategory)
    (f : ConvertibilityTotal → ConvertibilityTotal) : ConvertibilityTotals :=
  match c with
  | .restricted => { t with restricted := f t.restricted }
  | .partiallyConvertible => { t with partiallyConvertible := f t.partiallyConvertible }
  | .freelyConvertible => { t with freelyConvertible := f t.freelyConvertible }

/-- The rtcMetrics record, lines 160-164.  The fields are JsNum because the
pooling pass (lines 679, 695, 707) adds the raw, unparsed cashAmount. -/
structure RTCMetrics where
  potentialUpstreamToRTC : JsNum
  restrictedFunds : JsNum
  pendingConversion : JsNum
  deriving DecidableEq, Repr

/-- A node of the pooling graph, lines 166-169. -/
structure PoolingNode where
  id : String
  category : ConvertibilityCategory
  deriving DecidableEq, Repr

/-- A link of the pooling graph, lines 170-176. -/
structure PoolingLink where
  source : String
  target : String
  value : JsNum
  convertedValue : Option JsNum
  currency : String
  deriving DecidableEq, Repr

/-- The poolingSimulation record, lines 165-178. -/
structure PoolingSimulation where
  nodes : List PoolingNode
  links : List PoolingLink
  rtcTotal : JsNum
  deriving DecidableEq, Repr

/-- The full summary produced by calculateSummary (GlobalSummary, lines 140-179). -/
structure GlobalSummary where
  clients : List ClientSummary
  currencyTotals : List (String × CurrencyTotal)
  convertibilityTotals : ConvertibilityTotals
  rtcMetrics : RTCMetrics
  poolingSimulation : PoolingSimulation
  deriving DecidableEq, Repr

/-- Zero-initialized convertibilityTotals of lines 539-543. -/
def emptyConvTotals : ConvertibilityTotals :=
  { restricted := { totalCash := 0, totalBorrowing := 0, netPosition := 0, countries := [] }
    partiallyConvertible :=
      { totalCash := 0, totalBorrowing := 0, netPosition := 0, countries := [] }
    freelyConvertible :=
      { totalCash := 0, totalBorrowing := 0, netPosition := 0, countries := [] } }

/-- The zero-initialized summary of lines 514-532 and 536-554. -/
def emptySummary : GlobalSummary :=
  { clients := []
    currencyTotals := []
    convertibilityTotals := emptyConvTotals
    rtcMetrics :=
      { potentialUpstreamToRTC := some 0, restrictedFunds := some 0, pendingConversion := some 0 }
    poolingSimulation := { nodes := [], links := [], rtcTotal := some 0 } }

/-- Entry-skipping guard of lines 558 and 648: an entry with an empty client
name, an empty operating country or no currencies is silently ignored. -/
def skipEntry (e : ClientEntry) : Prop :=
  e.clientName = "" ∨ e.operatingCountry = "" ∨ e.currencies = []

instance (e : ClientEntry) : Decidable (skipEntry e) := by
  unfold skipEntry; infer_instance

/-- Fresh currencyTotals binding created on first sight of a currency
(lines 594-601) combined with the unconditional accumulation of lines 612-614. -/
def ctFresh (p : CurrencyEntry) : CurrencyTotal :=
  { totalCash := parseNum p.cashAmount
    totalBorrowing := parseNum p.borrowingAmount
    netPosition := parseNum p.cashAmount - parseNum p.borrowingAmount
    cashInterestRate := parseNum p.cashInterestRate
    borrowingInterestRate := parseNum p.borrowingInterestRate
    borrowingTenor := p.borrowingTenor }

/-- Update of an existing currencyTotals binding: rates are replaced only when
strictly greater (lines 603-609), the tenor is left unchanged, and the amounts
are accumulated (lines 612-614). -/
def ctBump (r : CurrencyTotal) (p : CurrencyEntry) : CurrencyTotal :=
  { totalCash := r.totalCash + parseNum p.cashAmount
    totalBorrowing := r.totalBorrowing + parseNum p.borrowingAmount
    netPosition := r.netPosition + (parseNum p.cashAmount - parseNum p.borrowingAmount)
    cashInterestRate :=
      if parseNum p.cashInterestRate > r.cashInterestRate then parseNum p.cashInterestRate
      else r.cashInterestRate
    borrowingInterestRate :=
      if parseNum p.borrowingInterestRate > r.borrowingInterestRate then
        parseNum p.borrowingInterestRate
      else r.borrowingInterestRate
    borrowingTenor := r.borrowingTenor }

/-- Upsert into the currencyTotals dictionary (lines 593-614): the first
binding with the position's key is updated in place, and a missing binding is
appended at the end, exactly as a JS object insertion behaves. -/
def ctUpdate (m : List (String × CurrencyTotal)) (p : CurrencyEntry) :
    List (String × CurrencyTotal) :=
  match m with
  | [] => [(p.currencyCode, ctFresh p)]
  | (c, r) :: rest =>
      if c = p.currencyCode then (c, ctBump r p) :: rest else (c, r) :: ctUpdate rest p

/-- CurrencyTotals contribution of one entry: positions with an empty currency
code are skipped (line 575), the rest are upserted in order. -/
def ctEntry (m : List (String × CurrencyTotal)) (ps : List CurrencyEntry) :
    List (String × CurrencyTotal) :=
  ps.foldl (fun m p => if p.currencyCode = "" then m else ctUpdate m p) m

/-- Per-currency row pushed into the country summary, lines 585-590. -/
def currencySummaryOf (p : CurrencyEntry) : CurrencySummary :=
  { currencyCode := p.currencyCode
    totalCash := parseNum p.cashAmount
    totalBorrowing := parseNum p.borrowingAmount
    netPosition := parseNum p.cashAmount - parseNum p.borrowingAmount }

/-- Country summary for one entry, built by the loop of lines 574-590:
one row per position with a non-empty currency code. -/
def countrySummaryOf (e : ClientEntry) : CountrySummary :=
  { country := e.operatingCountry
    currencies :=
      e.currencies.foldl
        (fun acc p => if p.currencyCode = "" then acc else acc ++ [currencySummaryOf p]) [] }

/-- Accumulation of one entry's amounts into a convertibility bucket,
lines 629-635: every position contributes, with no currency-code filter. -/
def convAddAmounts (r : ConvertibilityTotal) (ps : List CurrencyEntry) : ConvertibilityTotal :=
  ps.foldl
    (fun r p =>
      { r with
        totalCash := r.totalCash + parseNum p.cashAmount
        totalBorrowing := r.totalBorrowing + parseNum p.borrowingAmount
        netPosition :=
          r.netPosition + (parseNum p.cashAmount - parseNum p.borrowingAmount) }) r

/-- ConvertibilityTotals contribution of one entry with a known country
(lines 620-636): record the country once, then add all amounts. -/
def convEntry (t : ConvertibilityTotals) (cat : ConvertibilityCategory) (e : ClientEntry) :
    ConvertibilityTotals :=
  let t1 :=
    if (t.get cat).countries.contains e.operatingCountry then t
    else t.update cat (fun r => { r with countries := r.countries ++ [e.operatingCountry] })
  t1.update cat (fun r => convAddAmounts r e.currencies)

/-- First pass over one entry (lines 557-637): clients, currencyTotals and,
for known countries, convertibilityTotals. -/
def processEntry1 (s : GlobalSummary) (e : ClientEntry) : GlobalSummary :=
  if skipEntry e then s
  else
    let s1 :=
      { s with
        clients := s.clients ++ [{ clientName := e.clientName, countries := [countrySummaryOf e] }]
        currencyTotals := ctEntry s.currencyTotals e.currencies }
    match currencyConvertibility e.operatingCountry with
    | none => s1
    | some cat => { s1 with convertibilityTotals := convEntry s1.convertibilityTotals cat e }

/-- Mutable state threaded through the pooling loop: the link list, the rtc
metrics and the running rtcTotal (lines 663-710). -/
structure PoolState where
  links : List PoolingLink
  rtcMetrics : RTCMetrics
  rtcTotal : JsNum
  deriving DecidableEq, Repr

/-- Second-pass handling of one currency position (lines 663-710), with the
visualization floor Math.max(0.1, x) abstracted as the parameter fl.  The raw
cashAmount is used unparsed, exactly as on line 665. -/
def processPos2F (fl : JsNum → JsNum) (country : String) (cat : ConvertibilityCategory)
    (st : PoolState) (p : CurrencyEntry) : PoolState :=
  let cashAmount := p.cashAmount
  if jsLeZero cashAmount then st
  else
    let rule := poolingRules cat
    if rule.canPool = false then
      { st with
        links :=
          st.links ++
            [{ source := country, target := "Restricted", value := fl cashAmount,
               convertedValue := none, currency := p.currencyCode }]
        rtcMetrics :=
          { st.rtcMetrics with
            restrictedFunds := jsAdd st.rtcMetrics.restrictedFunds cashAmount } }
    else if rule.requiresConversion then
      let targetCurrency := rule.targetCurrency.getD "USD"
      let conversionRate := jsOrOne (fxRates p.currencyCode targetCurrency)
      let convertedValue := jsMulQ cashAmount conversionRate
      { st with
        links :=
          st.links ++
            [{ source := country, target := "RTC", value := fl cashAmount,
               convertedValue := some (fl convertedValue), currency := p.currencyCode }]
        rtcMetrics :=
          { st.rtcMetrics with
            pendingConversion := jsAdd st.rtcMetrics.pendingConversion cashAmount }
        rtcTotal := jsAdd st.rtcTotal convertedValue }
    else
      { st with
        links :=
          st.links ++
            [{ source := country, target := "RTC", value := fl cashAmount,
               convertedValue := none, currency := p.currencyCode }]
        rtcMetrics :=
          { st.rtcMetrics with
            potentialUpstreamToRTC := jsAdd st.rtcMetrics.potentialUpstreamToRTC cashAmount }
        rtcTotal := jsAdd st.rtcTotal cashAmount }

/-- Add a country node unless one with the same id exists (lines 653-660). -/
def addCountryNode (nodes : List PoolingNode) (country : String)
    (cat : ConvertibilityCategory) : List PoolingNode :=
  if nodes.any (fun n => n.id == country) then nodes
  else nodes ++ [{ id := country, category := cat }]

/-- Second pass over one entry (lines 646-711): skip invalid entries and
unknown countries, add the country node, process each position. -/
def processEntry2F (fl : JsNum → JsNum) (s : GlobalSummary) (e : ClientEntry) : GlobalSummary :=
  if skipEntry e then s
  else
    match currencyConvertibility e.operatingCountry with
    | none => s
    | some cat =>
      let nodes := addCountryNode s.poolingSimulation.nodes e.operatingCountry cat
      let st :=
        e.currencies.foldl (processPos2F fl e.operatingCountry cat)
          { links := s.poolingSimulation.links, rtcMetrics := s.rtcMetrics,
            rtcTotal := s.poolingSimulation.rtcTotal }
      { s with
        rtcMetrics := st.rtcMetrics
        poolingSimulation := { nodes := nodes, links := st.links, rtcTotal := st.rtcTotal } }

/-- The two sink nodes appended after the pooling loop, lines 714-717. -/
def sinkNodes : List PoolingNode :=
  [{ id := "RTC", category := .freelyConvertible },
   { id := "Restricted", category := .restricted }]

/-- calculateSummary (lines 512-720) with the link-value floor abstracted as
fl: the empty-input early return (lines 513-534), the aggregation pass, the
wholesale rtcMetrics assignment of lines 640-644, the pooling pass, and the
final sink-node append. -/
def calculateSummaryF (fl : JsNum → JsNum) (entries : List ClientEntry) : GlobalSummary :=
  if entries = [] then emptySummary
  else
    let s1 := entries.foldl processEntry1 emptySummary
    let s2 :=
      { s1 with
        rtcMetrics :=
          { potentialUpstreamToRTC := some s1.convertibilityTotals.freelyConvertible.totalCash
            restrictedFunds := some s1.convertibilityTotals.restricted.totalCash
            pendingConversion := some s1.convertibilityTotals.partiallyConvertible.totalCash } }
    let s3 := entries.foldl (processEntry2F fl) s2
    { s3 with
      poolingSimulation :=
        { s3.poolingSimulation with nodes := s3.poolingSimulation.nodes ++ sinkNodes } }

/-- The engine as shipped: calculateSummary with the Math.max(0.1, x) floor. -/
def calculateSummary (entries : List ClientEntry) : GlobalSummary :=
  calculateSummaryF jsMax01 entries

/-- Post-pooling interest expense block of lines 1968-1996, as a function of
the summary and the two slider parameters. -/
def postPoolingExpense (s : GlobalSummary) (fxHaircut usdDebitRate : ℚ) : JsNum :=
  let poolableLinks := s.poolingSimulation.links.filter (fun l => l.target == "RTC")
  let totalPooledCash := jsMulQ (jsSum (poolableLinks.map PoolingLink.value)) (1 - fxHaircut / 100)
  let totalBorrowing :=
    s.clients.foldl
      (fun total client =>
        total +
          client.countries.foldl
            (fun countryTotal country =>
              if currencyConvertibility country.country = some .restricted then countryTotal
              else
                countryTotal +
                  country.currencies.foldl (fun ct c => ct + c.totalBorrowing) 0) 0) 0
  let netPosition := jsSubQ totalPooledCash totalBorrowing
  let cashPoolBorrowingCost := jsMulQ totalPooledCash (usdDebitRate / 100)
  let additionalCost : JsNum :=
    match netPosition with
    | some q => if q < 0 then some (|q| * (usdDebitRate / 100)) else some 0
    | none => some 0
  jsAdd cashPoolBorrowingCost additionalCost

/-- Pooled cash after the FX haircut, as the claim words it: the sum of
link.value over links with target RTC, times (1 - fxHaircutPct/100). -/
def pooledCashAfterHaircut (s : GlobalSummary) (fxHaircut : ℚ) : JsNum :=
  jsMulQ
    (jsSum ((s.poolingSimulation.links.filter (fun l => l.target == "RTC")).map PoolingLink.value))
    (1 - fxHaircut / 100)

/-- Total borrowing summed over the summary rows, excluding countries of the
Restricted category (unknown countries are included). -/
def whatIfTotalBorrowing (s : GlobalSummary) : ℚ :=
  s.clients.foldl
    (fun total client =>
      total +
        client.countries.foldl
          (fun countryTotal country =>
            if currencyConvertibility country.country = some .restricted then countryTotal
            else
              countryTotal + country.currencies.foldl (fun ct c => ct + c.totalBorrowing) 0) 0) 0

/-- Net position of the what-if block: pooled cash after haircut minus the
non-restricted total borrowing. -/
def whatIfNetPosition (s : GlobalSummary) (fxHaircut : ℚ) : JsNum :=
  jsSubQ (pooledCashAfterHaircut s fxHaircut) (whatIfTotalBorrowing s)

/-- Cost of carrying the pooled cash at the USD debit rate. -/
def cashPoolBorrowingCost (s : GlobalSummary) (fxHaircut usdDebitRate : ℚ) : JsNum :=
  jsMulQ (pooledCashAfterHaircut s fxHaircut) (usdDebitRate / 100)

/-- Additional borrowing cost: |netPosition| at the USD debit rate when the
net position is negative, 0 otherwise (and 0 when the net position is NaN,
since the JS comparison NaN < 0 is false). -/
def additionalBorrowingCost (s : GlobalSummary) (fxHaircut usdDebitRate : ℚ) : JsNum :=
  match whatIfNetPosition s fxHaircut with
  | some q => if q < 0 then some (|q| * (usdDebitRate / 100)) else some 0
  | none => some 0

/-! ### Instrumentation: per-component step functions

The JS loops thread one mutable summary; each of the following functions is
the action of one loop iteration on a single component of that state.  They
are proved equal to the corresponding projections of processEntry1 and
processEntry2F and are used to state and prove the claims. -/

/-- JS object property lookup on the currencyTotals dictionary. -/
def findCT (c : String) : List (String × CurrencyTotal) → Option CurrencyTotal
  | [] => none
  | (k, r) :: rest => if k = c then some r else findCT c rest

/-- Action of one entry of the first pass on the currencyTotals component. -/
def ctEntryStep (m : List (String × CurrencyTotal)) (e : ClientEntry) :
    List (String × CurrencyTotal) :=
  if skipEntry e then m else ctEntry m e.currencies

/-- Action of one entry of the first pass on the convertibilityTotals component. -/
def convEntryStep (t : ConvertibilityTotals) (e : ClientEntry) : ConvertibilityTotals :=
  if skipEntry e then t
  else
    match currencyConvertibility e.operatingCountry with
    | none => t
    | some cat => convEntry t cat e

/-- The positions that actually reach the currencyTotals dictionary: positions
with a non-empty currency code of entries that are not skipped, in processing
order. -/
def contributingPositions (entries : List ClientEntry) : List CurrencyEntry :=
  entries.flatMap fun e =>
    if skipEntry e then [] else e.currencies.filter (fun p => !(p.currencyCode == ""))

/-- The convertibilityTotals produced by the first pass. -/
def aggConvTotals (entries : List ClientEntry) : ConvertibilityTotals :=
  entries.foldl convEntryStep emptyConvTotals

/-- The wholesale rtcMetrics assignment of lines 640-644, applied to the
first-pass convertibilityTotals. -/
def baseMetrics (entries : List ClientEntry) : RTCMetrics :=
  { potentialUpstreamToRTC := some (aggConvTotals entries).freelyConvertible.totalCash
    restrictedFunds := some (aggConvTotals entries).restricted.totalCash
    pendingConversion := some (aggConvTotals entries).partiallyConvertible.totalCash }

/-- The link (if any) that one currency position contributes to the pooling
graph, following the branch structure of lines 663-710. -/
def posLinkF (fl : JsNum → JsNum) (country : String) (cat : ConvertibilityCategory)
    (p : CurrencyEntry) : Option PoolingLink :=
  if jsLeZero p.cashAmount then none
  else
    let rule := poolingRules cat
    if rule.canPool = false then
      some { source := country, target := "Restricted", value := fl p.cashAmount,
             convertedValue := none, currency := p.currencyCode }
    else if rule.requiresConversion then
      some { source := country, target := "RTC", value := fl p.cashAmount,
             convertedValue :=
               some (fl (jsMulQ p.cashAmount
                 (jsOrOne (fxRates p.currencyCode (rule.targetCurrency.getD "USD"))))),
             currency := p.currencyCode }
    else
      some { source := country, target := "RTC", value := fl p.cashAmount,
             convertedValue := none, currency := p.currencyCode }

/-- Action of one currency position on the rtcMetrics component of the
pooling pass (the raw cashAmount additions of lines 679, 695 and 707). -/
def metricsStep (cat : ConvertibilityCategory) (m : RTCMetrics) (p : CurrencyEntry) :
    RTCMetrics :=
  if jsLeZero p.cashAmount then m
  else
    let rule := poolingRules cat
    if rule.canPool = false then
      { m with restrictedFunds := jsAdd m.restrictedFunds p.cashAmount }
    else if rule.requiresConversion then
      { m with pendingConversion := jsAdd m.pendingConversion p.cashAmount }
    else
      { m with potentialUpstreamToRTC := jsAdd m.potentialUpstreamToRTC p.cashAmount }

/-- Action of one currency position on the running rtcTotal (lines 696, 708). -/
def rtcTotalStep (cat : ConvertibilityCategory) (x : JsNum) (p : CurrencyEntry) : JsNum :=
  if jsLeZero p.cashAmount then x
  else
    let rule := poolingRules cat
    if rule.canPool = false then x
    else if rule.requiresConversion then
      jsAdd x (jsMulQ p.cashAmount
        (jsOrOne (fxRates p.currencyCode (rule.targetCurrency.getD "USD"))))
    else jsAdd x p.cashAmount

/-- Links contributed by one entry during the pooling pass. -/
def entryLinksF (fl : JsNum → JsNum) (e : ClientEntry) : List PoolingLink :=
  if skipEntry e then []
  else
    match currencyConvertibility e.operatingCountry with
    | none => []
    | some cat => e.currencies.filterMap (posLinkF fl e.operatingCountry cat)

/-- Action of one entry of the pooling pass on the rtcMetrics component. -/
def metricsEntryStep (m : RTCMetrics) (e : ClientEntry) : RTCMetrics :=
  if skipEntry e then m
  else
    match currencyConvertibility e.operatingCountry with
    | none => m
    | some cat => e.currencies.foldl (metricsStep cat) m

/-- Action of one entry of the pooling pass on the rtcTotal component. -/
def rtcTotalEntryStep (x : JsNum) (e : ClientEntry) : JsNum :=
  if skipEntry e then x
  else
    match currencyConvertibility e.operatingCountry with
    | none => x
    | some cat => e.currencies.foldl (rtcTotalStep cat) x

/-- Action of one entry of the pooling pass on the node list. -/
def nodesEntryStep (nodes : List PoolingNode) (e : ClientEntry) : List PoolingNode :=
  if skipEntry e then nodes
  else
    match currencyConvertibility e.operatingCountry with
    | none => nodes
    | some cat => addCountryNode nodes e.operatingCountry cat

/-- Maximum of a list of rationals computed as the engine computes it: a fold
that keeps the larger of the stored and the new value. -/
def listMax (l : List ℚ) : Option ℚ :=
  l.foldl (fun acc x => some (match acc with | none => x | some m => max m x)) none

/-- Parsed cash interest rates observed, in processing order, for one
currency code across all contributing positions. -/
def observedCashRates (entries : List ClientEntry) (c : String) : List ℚ :=
  ((contributingPositions entries).filter (fun p => p.currencyCode == c)).map
    (fun p => parseNum p.cashInterestRate)

/-- Parsed borrowing interest rates observed for one currency code. -/
def observedBorrowRates (entries : List ClientEntry) (c : String) : List ℚ :=
  ((contributingPositions entries).filter (fun p => p.currencyCode == c)).map
    (fun p => parseNum p.borrowingInterestRate)

/-- Borrowing tenors observed for one currency code, in processing order. -/
def observedTenors (entries : List ClientEntry) (c : String) : List BorrowingTenor :=
  ((contributingPositions entries).filter (fun p => p.currencyCode == c)).map
    (fun p => p.borrowingTenor)

/-- Replace a non-numeric field by the number 0 (and keep numeric fields). -/
def numerizeNum (x : JsNum) : JsNum := some (parseNum x)

/-- Replace all non-numeric numeric fields of a position by 0. -/
def numerizePos (p : CurrencyEntry) : CurrencyEntry :=
  { p with
    cashAmount := numerizeNum p.cashAmount
    cashInterestRate := numerizeNum p.cashInterestRate
    borrowingAmount := numerizeNum p.borrowingAmount
    borrowingInterestRate := numerizeNum p.borrowingInterestRate }

/-- Replace all non-numeric numeric fields of an entry by 0. -/
def numerizeEntry (e : ClientEntry) : ClientEntry :=
  { e with currencies := e.currencies.map numerizePos }

/-- Replace all non-numeric numeric fields of an entry list by 0. -/
def numerize (entries : List ClientEntry) : List ClientEntry := entries.map numerizeEntry

/-- The link shape asserted by the routing claim (amended by the floor on
convertedValue): one link per cash-positive position, target chosen by the
category, value floored at 0.1, and for a partially convertible country a
convertedValue equal to max(0.1, cashAmount times the FX rate from the
position's currency to the rule's target currency, the rate defaulting to 1
for a missing pair). -/
def claimLink (country : String) (cat : ConvertibilityCategory) (p : CurrencyEntry)
    (q : ℚ) : PoolingLink :=
  match cat with
  | .restricted =>
      { source := country, target := "Restricted", value := some (max 0.1 q),
        convertedValue := none, currency := p.currencyCode }
  | .partiallyConvertible =>
      { source := country, target := "RTC", value := some (max 0.1 q),
        convertedValue :=
          some (some (max 0.1 (q *
            jsOrOne (fxRates p.currencyCode
              ((poolingRules ConvertibilityCategory.partiallyConvertible).targetCurrency.getD
                "USD"))))),
        currency := p.currencyCode }
  | .freelyConvertible =>
      { source := country, target := "RTC", value := some (max 0.1 q),
        convertedValue := none, currency := p.currencyCode }

/-- Links the routing claim predicts for one entry: exactly one link per
currency position with a positive (numeric) cashAmount. -/
def claimEntryLinks (country : String) (cat : ConvertibilityCategory)
    (ps : List CurrencyEntry) : List PoolingLink :=
  ps.filterMap fun p =>
    match p.cashAmount with
    | some q => if 0 < q then some (claimLink country cat p q) else none
    | none => none

/-! ### Concrete inputs used by the scenario theorems and witnesses -/

/-- The China scenario of the spec: one entry, country China, currency CNY,
cash 2,000,000, borrowing 1,000,000, rates 1.5 and 2.5. -/
def chinaScenarioEntry : ClientEntry :=
  ⟨"ClientA", "China", [⟨"CNY", some 2000000, some 1.5, some 1000000, some 2.5, .shortTerm⟩]⟩

/-- A Malaysia entry with a small cash balance 0.2 MYR, below the 0.1 floor
after conversion at the MYR to USD rate 0.21. -/
def malaysiaSmallEntry : ClientEntry :=
  ⟨"ClientB", "Malaysia", [⟨"MYR", some 0.2, some 0, some 0, some 0, .shortTerm⟩]⟩

/-- The Malaysia scenario of the spec: cash 1,000,000 MYR, rate 0.21. -/
def malaysiaScenarioEntry : ClientEntry :=
  ⟨"ClientB", "Malaysia", [⟨"MYR", some 1000000, some 0, some 0, some 0, .shortTerm⟩]⟩

/-- One entry with two USD positions whose tenors differ: the first position
is long-term, the second (last-processed) is short-term. -/
def twoTenorEntry : ClientEntry :=
  ⟨"ClientC", "Singapore",
    [⟨"USD", some 1, some 1, some 1, some 2, .longTerm⟩,
     ⟨"USD", some 1, some 1, some 1, some 3, .shortTerm⟩]⟩

/-- A China entry whose single position has a non-numeric cashAmount. -/
def nanCashEntry : ClientEntry :=
  ⟨"ClientD", "China", [⟨"CNY", none, some 0, some 0, some 0, .shortTerm⟩]⟩

/-- A valid entry whose operating country is absent from the convertibility
reference table. -/
def unknownCountryEntry : ClientEntry :=
  ⟨"ClientE", "France", [⟨"EUR", some 100, some 1, some 40, some 2, .shortTerm⟩]⟩

/-- A China entry with one empty-currency-code position carrying amounts and
one normal CNY position. -/
def emptyCodeEntry : ClientEntry :=
  ⟨"ClientF", "China",
    [⟨"", some 50, some 1, some 20, some 2, .shortTerm⟩,
     ⟨"CNY", some 100, some 1, some 30, some 2, .shortTerm⟩]⟩

/-! ### Helper lemmas: the aggregation pass -/

theorem parseNum_numerizeNum (x : JsNum) : parseNum (numerizeNum x) = parseNum x := by
  cases x <;> rfl

theorem get_update_self (t : ConvertibilityTotals) (c : ConvertibilityCategory)
    (f : ConvertibilityTotal → ConvertibilityTotal) : (t.update c f).get c = f (t.get c) := by
  cases c <;> rfl

theorem findCT_ctUpdate (c : String) (m : List (String × CurrencyTotal)) (p : CurrencyEntry) :
    findCT c (ctUpdate m p) =
      if p.currencyCode = c then
        some (match findCT c m with | none => ctFresh p | some r => ctBump r p)
      else findCT c m := by
  induction m with
  | nil =>
      by_cases h : p.currencyCode = c
      · simp [ctUpdate, findCT, h]
      · simp [ctUpdate, findCT, h]
  | cons kv rest ih =>
      obtain ⟨k, r⟩ := kv
      by_cases hk : k = p.currencyCode
      · by_cases hc : p.currencyCode = c
        · have hkc : k = c := hk.trans hc
          subst hkc; subst hk
          simp [ctUpdate, findCT, hc]
        · have hkc : ¬ k = c := fun hh => hc (hk ▸ hh)
          simp [ctUpdate, findCT, hk, hc, hkc]
      · by_cases hkc : k = c
        · have hc : ¬ p.currencyCode = c := fun hh => hk (hkc.trans hh.symm)
          have hcp : ¬ c = p.currencyCode := fun hh => hc hh.symm
          simp [ctUpdate, findCT, hk, hc, hkc, hcp]
        · simp [ctUpdate, findCT, hk, hkc, ih]

theorem findCT_foldl (ps : List CurrencyEntry) (m : List (String × CurrencyTotal)) (c : String) :
    findCT c (ps.foldl ctUpdate m) =
      (ps.filter (fun p => p.currencyCode == c)).foldl
        (fun acc p => some (match acc with | none => ctFresh p | some r => ctBump r p))
        (findCT c m) := by
  induction ps generalizing m with
  | nil => rfl
  | cons p ps ih =>
      rw [List.foldl_cons, ih, List.filter_cons]
      by_cases h : p.currencyCode = c
      · simp [h, findCT_ctUpdate]
      · simp [h, findCT_ctUpdate]

theorem ctEntry_eq_filter_foldl (ps : List CurrencyEntry) :
    ∀ m : List (String × CurrencyTotal),
      ctEntry m ps = (ps.filter (fun p => !(p.currencyCode == ""))).foldl ctUpdate m := by
  induction ps with
  | nil => intro m; rfl
  | cons p ps ih =>
      intro m
      simp only [ctEntry, List.foldl_cons, List.filter_cons] at *
      by_cases h : p.currencyCode = ""
      · simp only [h, if_true, ite_true]
        simpa using ih m
      · simp only [h, if_false, ite_false]
        have hb : (p.currencyCode == "") = false := by
          simpa using h
        simp only [hb, Bool.not_false, if_true]
        rw [List.foldl_cons]
        exact ih (ctUpdate m p)

theorem processEntry1_currencyTotals (s : GlobalSummary) (e : ClientEntry) :
    (processEntry1 s e).currencyTotals = ctEntryStep s.currencyTotals e := by
  unfold processEntry1 ctEntryStep
  by_cases h : skipEntry e
  · simp [h]
  · simp only [h, if_false]
    cases hc : currencyConvertibility e.operatingCountry
    · rfl
    · simp [convEntry]

theorem processEntry1_convTotals (s : GlobalSummary) (e : ClientEntry) :
    (processEntry1 s e).convertibilityTotals = convEntryStep s.convertibilityTotals e := by
  unfold processEntry1 convEntryStep
  by_cases h : skipEntry e
  · simp [h]
  · simp only [h, if_false]
    cases hc : currencyConvertibility e.operatingCountry <;> simp

theorem processEntry1_rtcMetrics (s : GlobalSummary) (e : ClientEntry) :
    (processEntry1 s e).rtcMetrics = s.rtcMetrics := by
  unfold processEntry1
  by_cases h : skipEntry e
  · simp [h]
  · simp only [h, if_false]
    cases hc : currencyConvertibility e.operatingCountry <;> simp

theorem processEntry1_pooling (s : GlobalSummary) (e : ClientEntry) :
    (processEntry1 s e).poolingSimulation = s.poolingSimulation := by
  unfold processEntry1
  by_cases h : skipEntry e
  · simp [h]
  · simp only [h, if_false]
    cases hc : currencyConvertibility e.operatingCountry <;> simp

theorem foldl1_currencyTotals (entries : List ClientEntry) :
    ∀ s : GlobalSummary,
      (entries.foldl processEntry1 s).currencyTotals = entries.foldl ctEntryStep s.currencyTotals := by
  induction entries with
  | nil => intro s; rfl
  | cons e es ih =>
      intro s
      rw [List.foldl_cons, List.foldl_cons, ih, processEntry1_currencyTotals]

theorem foldl1_convTotals (entries : List ClientEntry) :
    ∀ s : GlobalSummary,
      (entries.foldl processEntry1 s).convertibilityTotals =
        entries.foldl convEntryStep s.convertibilityTotals := by
  induction entries with
  | nil => intro s; rfl
  | cons e es ih =>
      intro s
      rw [List.foldl_cons, List.foldl_cons, ih, processEntry1_convTotals]

theorem foldl1_rtcMetrics (entries : List ClientEntry) :
    ∀ s : GlobalSummary, (entries.foldl processEntry1 s).rtcMetrics = s.rtcMetrics := by
  induction entries with
  | nil => intro s; rfl
  | cons e es ih =>
      intro s
      rw [List.foldl_cons, ih, processEntry1_rtcMetrics]

theorem foldl1_pooling (entries : List ClientEntry) :
    ∀ s : GlobalSummary, (entries.foldl processEntry1 s).poolingSimulation = s.poolingSimulation := by
  induction entries with
  | nil => intro s; rfl
  | cons e es ih =>
      intro s
      rw [List.foldl_cons, ih, processEntry1_pooling]

theorem ctEntryStep_foldl_eq (entries : List ClientEntry) :
    ∀ m : List (String × CurrencyTotal),
      entries.foldl ctEntryStep m = (contributingPositions entries).foldl ctUpdate m := by
  induction entries with
  | nil => intro m; rfl
  | cons e es ih =>
      intro m
      rw [List.foldl_cons, ih]
      conv_rhs => rw [contributingPositions, List.flatMap_cons, List.foldl_append]
      congr 1
      unfold ctEntryStep
      by_cases h : skipEntry e
      · simp [h]
      · simp [h, ctEntry_eq_filter_foldl]

/-! ### Helper lemmas: the pooling pass -/

theorem processPos2F_eq (fl : JsNum → JsNum) (c : String) (cat : ConvertibilityCategory)
    (st : PoolState) (p : CurrencyEntry) :
    processPos2F fl c cat st p =
      { links := st.links ++ (posLinkF fl c cat p).toList
        rtcMetrics := metricsStep cat st.rtcMetrics p
        rtcTotal := rtcTotalStep cat st.rtcTotal p } := by
  unfold processPos2F posLinkF metricsStep rtcTotalStep
  by_cases hz : jsLeZero p.cashAmount
  · simp [hz]
  · simp only [hz, Bool.false_eq_true, if_false, ite_false]
    by_cases h1 : (poolingRules cat).canPool = false
    · simp [h1]
    · by_cases h2 : (poolingRules cat).requiresConversion
      · simp [h1, h2]
      · simp [h1, h2]

theorem poolFold (fl : JsNum → JsNum) (c : String) (cat : ConvertibilityCategory)
    (ps : List CurrencyEntry) :
    ∀ st : PoolState,
      ps.foldl (processPos2F fl c cat) st =
        { links := st.links ++ ps.filterMap (posLinkF fl c cat)
          rtcMetrics := ps.foldl (metricsStep cat) st.rtcMetrics
          rtcTotal := ps.foldl (rtcTotalStep cat) st.rtcTotal } := by
  induction ps with
  | nil => intro st; simp
  | cons p ps ih =>
      intro st
      rw [List.foldl_cons, processPos2F_eq, ih]
      cases hl : posLinkF fl c cat p <;>
        simp [List.filterMap_cons, hl, List.append_assoc]

theorem processEntry2F_char (fl : JsNum → JsNum) (s : GlobalSummary) (e : ClientEntry) :
    processEntry2F fl s e =
      { s with
        rtcMetrics := metricsEntryStep s.rtcMetrics e
        poolingSimulation :=
          { nodes := nodesEntryStep s.poolingSimulation.nodes e
            links := s.poolingSimulation.links ++ entryLinksF fl e
            rtcTotal := rtcTotalEntryStep s.poolingSimulation.rtcTotal e } } := by
  unfold processEntry2F metricsEntryStep nodesEntryStep rtcTotalEntryStep entryLinksF
  by_cases h : skipEntry e
  · simp [h]
  · simp only [h, if_false, ite_false]
    cases hc : currencyConvertibility e.operatingCountry
    · simp
    · simp [poolFold]

theorem foldl2_char (fl : JsNum → JsNum) (entries : List ClientEntry) :
    ∀ s : GlobalSummary,
      entries.foldl (processEntry2F fl) s =
        { s with
          rtcMetrics := entries.foldl metricsEntryStep s.rtcMetrics
          poolingSimulation :=
            { nodes := entries.foldl nodesEntryStep s.poolingSimulation.nodes
              links := s.poolingSimulation.links ++ entries.flatMap (entryLinksF fl)
              rtcTotal := entries.foldl rtcTotalEntryStep s.poolingSimulation.rtcTotal } } := by
  induction entries with
  | nil => intro s; simp
  | cons e es ih =>
      intro s
      rw [List.foldl_cons, processEntry2F_char, ih]
      simp [List.flatMap_cons, List.append_assoc]

/-! ### Whole-engine characterizations -/

theorem cs_currencyTotals (fl : JsNum → JsNum) (entries : List ClientEntry) :
    (calculateSummaryF fl entries).currencyTotals =
      (contributingPositions entries).foldl ctUpdate [] := by
  unfold calculateSummaryF
  by_cases h : entries = []
  · subst h; rfl
  · simp only [h, if_false, ite_false]
    rw [foldl2_char]
    simp [foldl1_currencyTotals, ctEntryStep_foldl_eq, emptySummary]

theorem cs_convTotals (fl : JsNum → JsNum) (entries : List ClientEntry) :
    (calculateSummaryF fl entries).convertibilityTotals = aggConvTotals entries := by
  unfold calculateSummaryF
  by_cases h : entries = []
  · subst h; rfl
  · simp only [h, if_false, ite_false]
    rw [foldl2_char]
    simp [foldl1_convTotals, aggConvTotals, emptySummary]

theorem cs_rtcMetrics (fl : JsNum → JsNum) (entries : List ClientEntry) :
    (calculateSummaryF fl entries).rtcMetrics =
      entries.foldl metricsEntryStep (baseMetrics entries) := by
  unfold calculateSummaryF
  by_cases h : entries = []
  · subst h; rfl
  · simp only [h, if_false, ite_false]
    rw [foldl2_char]
    simp only []
    congr 1
    rw [baseMetrics]
    have hc := foldl1_convTotals entries emptySummary
    rw [show emptySummary.convertibilityTotals = emptyConvTotals from rfl] at hc
    rw [← aggConvTotals] at hc
    simp [hc]

theorem cs_links (fl : JsNum → JsNum) (entries : List ClientEntry) :
    (calculateSummaryF fl entries).poolingSimulation.links =
      entries.flatMap (entryLinksF fl) := by
  unfold calculateSummaryF
  by_cases h : entries = []
  · subst h; rfl
  · simp only [h, if_false, ite_false]
    rw [foldl2_char]
    simp [foldl1_pooling, emptySummary]

theorem cs_rtcTotal (fl : JsNum → JsNum) (entries : List ClientEntry) :
    (calculateSummaryF fl entries).poolingSimulation.rtcTotal =
      entries.foldl rtcTotalEntryStep (some 0) := by
  unfold calculateSummaryF
  by_cases h : entries = []
  · subst h; rfl
  · simp only [h, if_false, ite_false]
    rw [foldl2_char]
    simp only []
    congr 1
    rw [foldl1_pooling]
    rfl

theorem cs_nodes (fl : JsNum → JsNum) (entries : List ClientEntry) (h : ¬ entries = []) :
    (calculateSummaryF fl entries).poolingSimulation.nodes =
      entries.foldl nodesEntryStep [] ++ sinkNodes := by
  unfold calculateSummaryF
  simp only [h, if_false, ite_false]
  rw [foldl2_char]
  simp only []
  congr 2
  rw [foldl1_pooling]
  rfl

/-! ### Helper lemmas: rate bookkeeping, sums, and conversions -/

theorem gt_ite_eq_max (m x : ℚ) : (if x > m then x else m) = max m x := by
  by_cases h : x > m
  · simp [h, max_eq_right (le_of_lt h)]
  · simp [h, max_eq_left (le_of_not_lt h)]

theorem keyFold_cashRate (l : List CurrencyEntry) :
    ∀ acc : Option CurrencyTotal,
      ((l.foldl (fun acc p => some (match acc with | none => ctFresh p | some r => ctBump r p))
            acc).map CurrencyTotal.cashInterestRate) =
        l.foldl
          (fun a p =>
            some (match a with
              | none => parseNum p.cashInterestRate
              | some m => max m (parseNum p.cashInterestRate)))
          (acc.map CurrencyTotal.cashInterestRate) := by
  induction l with
  | nil => intro acc; rfl
  | cons p l ih =>
      intro acc
      rw [List.foldl_cons, List.foldl_cons, ih]
      congr 1
      cases acc with
      | none => rfl
      | some r => simp [ctBump, gt_ite_eq_max]

theorem keyFold_borrowRate (l : List CurrencyEntry) :
    ∀ acc : Option CurrencyTotal,
      ((l.foldl (fun acc p => some (match acc with | none => ctFresh p | some r => ctBump r p))
            acc).map CurrencyTotal.borrowingInterestRate) =
        l.foldl
          (fun a p =>
            some (match a with
              | none => parseNum p.borrowingInterestRate
              | some m => max m (parseNum p.borrowingInterestRate)))
          (acc.map CurrencyTotal.borrowingInterestRate) := by
  induction l with
  | nil => intro acc; rfl
  | cons p l ih =>
      intro acc
      rw [List.foldl_cons, List.foldl_cons, ih]
      congr 1
      cases acc with
      | none => rfl
      | some r => simp [ctBump, gt_ite_eq_max]

theorem keyFold_tenor (l : List CurrencyEntry) :
    ∀ acc : Option CurrencyTotal,
      ((l.foldl (fun acc p => some (match acc with | none => ctFresh p | some r => ctBump r p))
            acc).map CurrencyTotal.borrowingTenor) =
        l.foldl
          (fun a p =>
            some (match a with
              | none => p.borrowingTenor
              | some t => t))
          (acc.map CurrencyTotal.borrowingTenor) := by
  induction l with
  | nil => intro acc; rfl
  | cons p l ih =>
      intro acc
      rw [List.foldl_cons, List.foldl_cons, ih]
      congr 1
      cases acc with
      | none => rfl
      | some r => rfl

theorem firstFold (l : List BorrowingTenor) :
    ∀ a : Option BorrowingTenor,
      l.foldl (fun acc x => some (match acc with | none => x | some t => t)) a =
        (match a with | none => l.head? | some t => some t) := by
  induction l with
  | nil => intro a; cases a <;> rfl
  | cons x l ih =>
      intro a
      cases a with
      | none => rw [List.foldl_cons, ih]; rfl
      | some t => rw [List.foldl_cons, ih]

theorem sumCash_ctUpdate (m : List (String × CurrencyTotal)) (p : CurrencyEntry) :
    ((ctUpdate m p).map (fun kv => kv.2.totalCash)).sum =
      (m.map (fun kv => kv.2.totalCash)).sum + parseNum p.cashAmount := by
  induction m with
  | nil => simp [ctUpdate, ctFresh]
  | cons kv rest ih =>
      obtain ⟨k, r⟩ := kv
      by_cases h : k = p.currencyCode
      · simp [ctUpdate, h, ctBump]
        ring
      · simp [ctUpdate, h, ih]
        ring

theorem sumBorrow_ctUpdate (m : List (String × CurrencyTotal)) (p : CurrencyEntry) :
    ((ctUpdate m p).map (fun kv => kv.2.totalBorrowing)).sum =
      (m.map (fun kv => kv.2.totalBorrowing)).sum + parseNum p.borrowingAmount := by
  induction m with
  | nil => simp [ctUpdate, ctFresh]
  | cons kv rest ih =>
      obtain ⟨k, r⟩ := kv
      by_cases h : k = p.currencyCode
      · simp [ctUpdate, h, ctBump]
        ring
      · simp [ctUpdate, h, ih]
        ring

theorem sumCash_foldl (l : List CurrencyEntry) :
    ∀ m : List (String × CurrencyTotal),
      ((l.foldl ctUpdate m).map (fun kv => kv.2.totalCash)).sum =
        (m.map (fun kv => kv.2.totalCash)).sum + (l.map (fun p => parseNum p.cashAmount)).sum := by
  induction l with
  | nil => intro m; simp
  | cons p l ih =>
      intro m
      rw [List.foldl_cons, ih, sumCash_ctUpdate]
      simp
      ring

theorem sumBorrow_foldl (l : List CurrencyEntry) :
    ∀ m : List (String × CurrencyTotal),
      ((l.foldl ctUpdate m).map (fun kv => kv.2.totalBorrowing)).sum =
        (m.map (fun kv => kv.2.totalBorrowing)).sum +
          (l.map (fun p => parseNum p.borrowingAmount)).sum := by
  induction l with
  | nil => intro m; simp
  | cons p l ih =>
      intro m
      rw [List.foldl_cons, ih, sumBorrow_ctUpdate]
      simp
      ring

theorem convAddAmounts_totalCash (ps : List CurrencyEntry) :
    ∀ r : ConvertibilityTotal,
      (convAddAmounts r ps).totalCash =
        r.totalCash + (ps.map (fun p => parseNum p.cashAmount)).sum := by
  induction ps with
  | nil => intro r; simp [convAddAmounts]
  | cons p ps ih =>
      intro r
      rw [convAddAmounts, List.foldl_cons]
      rw [show (ps.foldl _ _) = convAddAmounts _ ps from rfl, ih]
      simp
      ring

theorem convAddAmounts_totalBorrowing (ps : List CurrencyEntry) :
    ∀ r : ConvertibilityTotal,
      (convAddAmounts r ps).totalBorrowing =
        r.totalBorrowing + (ps.map (fun p => parseNum p.borrowingAmount)).sum := by
  induction ps with
  | nil => intro r; simp [convAddAmounts]
  | cons p ps ih =>
      intro r
      rw [convAddAmounts, List.foldl_cons]
      rw [show (ps.foldl _ _) = convAddAmounts _ ps from rfl, ih]
      simp
      ring

theorem convEntry_totalCash (t : ConvertibilityTotals) (cat : ConvertibilityCategory)
    (e : ClientEntry) :
    ((convEntry t cat e).get cat).totalCash =
      (t.get cat).totalCash + (e.currencies.map (fun p => parseNum p.cashAmount)).sum := by
  unfold convEntry
  by_cases h : (t.get cat).countries.contains e.operatingCountry = true
  · rw [if_pos h, get_update_self, convAddAmounts_totalCash]
  · rw [if_neg h, get_update_self, convAddAmounts_totalCash, get_update_self]

theorem convEntry_totalBorrowing (t : ConvertibilityTotals) (cat : ConvertibilityCategory)
    (e : ClientEntry) :
    ((convEntry t cat e).get cat).totalBorrowing =
      (t.get cat).totalBorrowing + (e.currencies.map (fun p => parseNum p.borrowingAmount)).sum := by
  unfold convEntry
  by_cases h : (t.get cat).countries.contains e.operatingCountry = true
  · rw [if_pos h, get_update_self, convAddAmounts_totalBorrowing]
  · rw [if_neg h, get_update_self, convAddAmounts_totalBorrowing, get_update_self]

/-! ### Helper lemmas: zero-substitution invariance of the aggregation pass -/

theorem jsAdd_none_right (x : JsNum) : jsAdd x none = none := by
  cases x <;> rfl

theorem ctFresh_numerize (p : CurrencyEntry) : ctFresh (numerizePos p) = ctFresh p := by
  simp [ctFresh, numerizePos, parseNum_numerizeNum]

theorem ctBump_numerize (r : CurrencyTotal) (p : CurrencyEntry) :
    ctBump r (numerizePos p) = ctBump r p := by
  simp [ctBump, numerizePos, parseNum_numerizeNum]

theorem ctUpdate_numerize (m : List (String × CurrencyTotal)) (p : CurrencyEntry) :
    ctUpdate m (numerizePos p) = ctUpdate m p := by
  induction m with
  | nil =>
      simp only [ctUpdate]
      rw [ctFresh_numerize, show (numerizePos p).currencyCode = p.currencyCode from rfl]
  | cons kv rest ih =>
      obtain ⟨k, r⟩ := kv
      simp only [ctUpdate]
      rw [ctBump_numerize, ih, show (numerizePos p).currencyCode = p.currencyCode from rfl]

theorem ctEntry_numerize (ps : List CurrencyEntry) :
    ∀ m : List (String × CurrencyTotal),
      ctEntry m (ps.map numerizePos) = ctEntry m ps := by
  induction ps with
  | nil => intro m; rfl
  | cons p ps ih =>
      intro m
      simp only [List.map_cons, ctEntry, List.foldl_cons]
      by_cases h : p.currencyCode = ""
      · simp only [numerizePos, h, if_pos]
        exact ih m
      · simp only [numerizePos, h, if_neg, ite_false]
        rw [show ctUpdate m { p with
            cashAmount := numerizeNum p.cashAmount
            cashInterestRate := numerizeNum p.cashInterestRate
            borrowingAmount := numerizeNum p.borrowingAmount
            borrowingInterestRate := numerizeNum p.borrowingInterestRate } =
          ctUpdate m (numerizePos p) from rfl, ctUpdate_numerize]
        exact ih (ctUpdate m p)

theorem currencySummaryOf_numerize (p : CurrencyEntry) :
    currencySummaryOf (numerizePos p) = currencySummaryOf p := by
  simp [currencySummaryOf, numerizePos, parseNum_numerizeNum]

theorem countryFold_numerize (ps : List CurrencyEntry) :
    ∀ acc : List CurrencySummary,
      (ps.map numerizePos).foldl
          (fun acc p => if p.currencyCode = "" then acc else acc ++ [currencySummaryOf p]) acc =
        ps.foldl (fun acc p => if p.currencyCode = "" then acc else acc ++ [currencySummaryOf p])
          acc := by
  induction ps with
  | nil => intro acc; rfl
  | cons p ps ih =>
      intro acc
      simp only [List.map_cons, List.foldl_cons]
      rw [show (numerizePos p).currencyCode = p.currencyCode from rfl, currencySummaryOf_numerize]
      exact ih _

theorem countrySummaryOf_numerize (e : ClientEntry) :
    countrySummaryOf (numerizeEntry e) = countrySummaryOf e := by
  unfold countrySummaryOf
  rw [show (numerizeEntry e).operatingCountry = e.operatingCountry from rfl,
    show (numerizeEntry e).currencies = e.currencies.map numerizePos from rfl]
  congr 1
  exact countryFold_numerize e.currencies []

theorem convAddAmounts_numerize (ps : List CurrencyEntry) :
    ∀ r : ConvertibilityTotal, convAddAmounts r (ps.map numerizePos) = convAddAmounts r ps := by
  induction ps with
  | nil => intro r; rfl
  | cons p ps ih =>
      intro r
      simp only [List.map_cons, convAddAmounts, List.foldl_cons]
      rw [show (numerizePos p).cashAmount = numerizeNum p.cashAmount from rfl,
        show (numerizePos p).borrowingAmount = numerizeNum p.borrowingAmount from rfl,
        parseNum_numerizeNum, parseNum_numerizeNum]
      exact ih _

theorem skipEntry_numerize (e : ClientEntry) : skipEntry (numerizeEntry e) ↔ skipEntry e := by
  simp [skipEntry, numerizeEntry]

theorem convEntry_numerize (t : ConvertibilityTotals) (cat : ConvertibilityCategory)
    (e : ClientEntry) : convEntry t cat (numerizeEntry e) = convEntry t cat e := by
  unfold convEntry
  rw [show (numerizeEntry e).operatingCountry = e.operatingCountry from rfl,
    show (numerizeEntry e).currencies = e.currencies.map numerizePos from rfl]
  have hf : (fun r => convAddAmounts r (e.currencies.map numerizePos)) =
      fun r => convAddAmounts r e.currencies :=
    funext fun r => convAddAmounts_numerize e.currencies r
  rw [hf]

theorem processEntry1_numerize (s : GlobalSummary) (e : ClientEntry) :
    processEntry1 s (numerizeEntry e) = processEntry1 s e := by
  unfold processEntry1
  by_cases h : skipEntry e
  · rw [if_pos ((skipEntry_numerize e).mpr h), if_pos h]
  · rw [if_neg (fun hh => h ((skipEntry_numerize e).mp hh)), if_neg h]
    rw [countrySummaryOf_numerize,
      show (numerizeEntry e).clientName = e.clientName from rfl,
      show (numerizeEntry e).operatingCountry = e.operatingCountry from rfl,
      show (numerizeEntry e).currencies = e.currencies.map numerizePos from rfl,
      ctEntry_numerize]
    cases hc : currencyConvertibility e.operatingCountry with
    | none => rfl
    | some cat => simp only [convEntry_numerize]

theorem foldl1_numerize (entries : List ClientEntry) :
    ∀ s : GlobalSummary,
      (numerize entries).foldl processEntry1 s = entries.foldl processEntry1 s := by
  induction entries with
  | nil => intro s; rfl
  | cons e es ih =>
      intro s
      rw [numerize, List.map_cons, List.foldl_cons, processEntry1_numerize, List.foldl_cons,
        ← numerize, ih]

theorem cs_clients (fl : JsNum → JsNum) (entries : List ClientEntry) :
    (calculateSummaryF fl entries).clients =
      (entries.foldl processEntry1 emptySummary).clients := by
  unfold calculateSummaryF
  by_cases h : entries = []
  · subst h; rfl
  · simp only [h, if_false, ite_false]
    rw [foldl2_char]

theorem cs_currencyTotals_agg (fl : JsNum → JsNum) (entries : List ClientEntry) :
    (calculateSummaryF fl entries).currencyTotals =
      (entries.foldl processEntry1 emptySummary).currencyTotals := by
  unfold calculateSummaryF
  by_cases h : entries = []
  · subst h; rfl
  · simp only [h, if_false, ite_false]
    rw [foldl2_char]

theorem cs_convTotals_agg (fl : JsNum → JsNum) (entries : List ClientEntry) :
    (calculateSummaryF fl entries).convertibilityTotals =
      (entries.foldl processEntry1 emptySummary).convertibilityTotals := by
  unfold calculateSummaryF
  by_cases h : entries = []
  · subst h; rfl
  · simp only [h, if_false, ite_false]
    rw [foldl2_char]

/-! ### Claim theorems -/

set_option maxHeartbeats 2000000 in
/-- C1: the claim states that after one computation pass rtcMetrics.restrictedFunds
equals the sum of cash amounts of Restricted-category positions (2,000,000 in the
China scenario), and likewise for the other two metrics.  The code first assigns
rtcMetrics wholesale from convertibilityTotals (lines 640-644) and then adds every
positive cash amount AGAIN during the pooling pass (lines 679, 695, 707), so each
metric is double-counted: on the China scenario convertibilityTotals correctly
holds 2,000,000 of restricted cash, but rtcMetrics.restrictedFunds evaluates to
4,000,000, contradicting the claim. -/
theorem claim_C1_rtc_metrics_double_count :
    (calculateSummary [chinaScenarioEntry]).convertibilityTotals.restricted.totalCash = 2000000 ∧
    (calculateSummary [chinaScenarioEntry]).rtcMetrics =
      { potentialUpstreamToRTC := some 0, restrictedFunds := some 4000000,
        pendingConversion := some 0 } := by
  norm_num +decide [calculateSummary, calculateSummaryF, emptySummary, emptyConvTotals,
    processEntry1, processEntry2F, processPos2F, skipEntry, ctEntry, ctUpdate, ctFresh, ctBump,
    countrySummaryOf, currencySummaryOf, convEntry, convAddAmounts, ConvertibilityTotals.get,
    ConvertibilityTotals.update, currencyConvertibility, poolingRules, fxRates, jsOrOne, jsAdd,
    jsMulQ, jsLeZero, jsMax01, parseNum, addCountryNode, sinkNodes, chinaScenarioEntry]

/-- C4: for every entry list and currency code, the stored cashInterestRate and
borrowingInterestRate in currencyTotals equal the maximum rate observed across
all contributing positions for that currency (set on first sighting, replaced on
later sightings only when strictly greater). -/
theorem claim_C4_max_rate_bookkeeping (entries : List ClientEntry) (c : String) :
    ((findCT c (calculateSummary entries).currencyTotals).map CurrencyTotal.cashInterestRate =
        listMax (observedCashRates entries c)) ∧
    ((findCT c (calculateSummary entries).currencyTotals).map CurrencyTotal.borrowingInterestRate =
        listMax (observedBorrowRates entries c)) := by
  constructor
  · rw [calculateSummary, cs_currencyTotals, findCT_foldl, keyFold_cashRate, observedCashRates,
      listMax, List.foldl_map]
    rfl
  · rw [calculateSummary, cs_currencyTotals, findCT_foldl, keyFold_borrowRate, observedBorrowRates,
      listMax, List.foldl_map]
    rfl

set_option maxHeartbeats 2000000 in
/-- C5 counterexample: the claim states that when a currency appears in several
contributing positions, the stored borrowingTenor is the tenor of the
last-processed position.  On an entry with two USD positions, long-term first
and short-term last, the stored tenor is the FIRST one (long-term): the tenor is
written only when the currency bucket is created (line 600) and never updated in
the else branch of lines 602-610. -/
theorem claim_C5_counterexample :
    (findCT "USD" (calculateSummary [twoTenorEntry]).currencyTotals).map
        CurrencyTotal.borrowingTenor = some BorrowingTenor.longTerm ∧
    (observedTenors [twoTenorEntry] "USD").getLast? = some BorrowingTenor.shortTerm ∧
    BorrowingTenor.longTerm ≠ BorrowingTenor.shortTerm := by
  norm_num +decide [calculateSummary, calculateSummaryF, emptySummary, emptyConvTotals,
    processEntry1, processEntry2F, processPos2F, skipEntry, ctEntry, ctUpdate, ctFresh, ctBump,
    countrySummaryOf, currencySummaryOf, convEntry, convAddAmounts, ConvertibilityTotals.get,
    ConvertibilityTotals.update, currencyConvertibility, poolingRules, fxRates, jsOrOne, jsAdd,
    jsMulQ, jsLeZero, jsMax01, parseNum, addCountryNode, sinkNodes, twoTenorEntry, findCT,
    observedTenors, contributingPositions]

/-- C5 (amended): the borrowingTenor stored in currencyTotals for a currency is
the tenor of the FIRST-processed contributing position for that currency, not
the last-processed one. -/
theorem claim_C5_first_tenor (entries : List ClientEntry) (c : String) :
    (findCT c (calculateSummary entries).currencyTotals).map CurrencyTotal.borrowingTenor =
      (observedTenors entries c).head? := by
  rw [calculateSummary, cs_currencyTotals, findCT_foldl, keyFold_tenor, observedTenors]
  have h := firstFold
    (((contributingPositions entries).filter (fun p => p.currencyCode == c)).map
      (fun p => p.borrowingTenor)) none
  rw [List.foldl_map] at h
  exact h

/-- C6: conservation of amounts: the sum over all currencies of
currencyTotals[c].totalCash equals the sum of (parsed) cashAmount over all
contributing positions (entries with a missing clientName, missing
operatingCountry or zero currencies, and positions with an empty currencyCode,
are excluded), and symmetrically for totalBorrowing. -/
theorem claim_C6_conservation (entries : List ClientEntry) :
    (((calculateSummary entries).currencyTotals.map (fun kv => kv.2.totalCash)).sum =
        ((contributingPositions entries).map (fun p => parseNum p.cashAmount)).sum) ∧
    (((calculateSummary entries).currencyTotals.map (fun kv => kv.2.totalBorrowing)).sum =
        ((contributingPositions entries).map (fun p => parseNum p.borrowingAmount)).sum) := by
  constructor
  · rw [calculateSummary, cs_currencyTotals, sumCash_foldl]
    simp
  · rw [calculateSummary, cs_currencyTotals, sumBorrow_foldl]
    simp

/-- C7: the post-pooling interest expense equals cashPoolBorrowingCost plus
additionalBorrowingCost, where the pooled cash after haircut is the sum of
link.value over links with target RTC times (1 - fxHaircutPct/100), the total
borrowing is summed over all entries excluding Restricted-category countries,
the net position is their difference, cashPoolBorrowingCost is pooled cash
times usdDebitRatePct/100, and additionalBorrowingCost is |netPosition| times
usdDebitRatePct/100 when negative and 0 otherwise. -/
theorem claim_C7_post_pooling_expense (s : GlobalSummary) (fxHaircut usdDebitRate : ℚ) :
    postPoolingExpense s fxHaircut usdDebitRate =
      jsAdd (cashPoolBorrowingCost s fxHaircut usdDebitRate)
        (additionalBorrowingCost s fxHaircut usdDebitRate) ∧
    cashPoolBorrowingCost s fxHaircut usdDebitRate =
      jsMulQ (pooledCashAfterHaircut s fxHaircut) (usdDebitRate / 100) ∧
    whatIfNetPosition s fxHaircut =
      jsSubQ (pooledCashAfterHaircut s fxHaircut) (whatIfTotalBorrowing s) ∧
    pooledCashAfterHaircut s fxHaircut =
      jsMulQ
        (jsSum ((s.poolingSimulation.links.filter (fun l => l.target == "RTC")).map
          PoolingLink.value))
        (1 - fxHaircut / 100) ∧
    additionalBorrowingCost s fxHaircut usdDebitRate =
      (match whatIfNetPosition s fxHaircut with
       | some q => if q < 0 then some (|q| * (usdDebitRate / 100)) else some 0
       | none => some 0) :=
  ⟨rfl, rfl, rfl, rfl, rfl⟩

/-! ### Helper lemmas: entries with unknown or known countries, appended at the end -/

theorem convEntryStep_of_unknown (t : ConvertibilityTotals) (e : ClientEntry)
    (h1 : ¬ skipEntry e) (h2 : currencyConvertibility e.operatingCountry = none) :
    convEntryStep t e = t := by
  unfold convEntryStep
  rw [if_neg h1, h2]

theorem metricsEntryStep_of_unknown (m : RTCMetrics) (e : ClientEntry)
    (h1 : ¬ skipEntry e) (h2 : currencyConvertibility e.operatingCountry = none) :
    metricsEntryStep m e = m := by
  unfold metricsEntryStep
  rw [if_neg h1, h2]

theorem rtcTotalEntryStep_of_unknown (x : JsNum) (e : ClientEntry)
    (h1 : ¬ skipEntry e) (h2 : currencyConvertibility e.operatingCountry = none) :
    rtcTotalEntryStep x e = x := by
  unfold rtcTotalEntryStep
  rw [if_neg h1, h2]

theorem nodesEntryStep_of_unknown (nodes : List PoolingNode) (e : ClientEntry)
    (h1 : ¬ skipEntry e) (h2 : currencyConvertibility e.operatingCountry = none) :
    nodesEntryStep nodes e = nodes := by
  unfold nodesEntryStep
  rw [if_neg h1, h2]

theorem entryLinksF_of_unknown (fl : JsNum → JsNum) (e : ClientEntry)
    (h1 : ¬ skipEntry e) (h2 : currencyConvertibility e.operatingCountry = none) :
    entryLinksF fl e = [] := by
  unfold entryLinksF
  rw [if_neg h1, h2]

theorem aggConv_append_unknown (entries : List ClientEntry) (e : ClientEntry)
    (h1 : ¬ skipEntry e) (h2 : currencyConvertibility e.operatingCountry = none) :
    aggConvTotals (entries ++ [e]) = aggConvTotals entries := by
  rw [aggConvTotals, List.foldl_append, List.foldl_cons, List.foldl_nil, ← aggConvTotals,
    convEntryStep_of_unknown _ _ h1 h2]

theorem contributingPositions_append (entries : List ClientEntry) (e : ClientEntry)
    (h1 : ¬ skipEntry e) :
    contributingPositions (entries ++ [e]) =
      contributingPositions entries ++
        e.currencies.filter (fun p => !(p.currencyCode == "")) := by
  rw [contributingPositions, List.flatMap_append, ← contributingPositions]
  simp [h1]

/-- C9: a valid entry whose operatingCountry is not in the reference table is
still folded into currencyTotals, but contributes nothing to
convertibilityTotals, rtcMetrics, or the pooling graph (no link, no node, no
rtcTotal change; the two sink nodes are appended regardless, which is only
visible against an empty prefix). -/
theorem claim_C9_unknown_country (entries : List ClientEntry) (e : ClientEntry)
    (h1 : ¬ skipEntry e) (h2 : currencyConvertibility e.operatingCountry = none) :
    (calculateSummary (entries ++ [e])).convertibilityTotals =
        (calculateSummary entries).convertibilityTotals ∧
    (calculateSummary (entries ++ [e])).rtcMetrics = (calculateSummary entries).rtcMetrics ∧
    (calculateSummary (entries ++ [e])).poolingSimulation.links =
        (calculateSummary entries).poolingSimulation.links ∧
    (calculateSummary (entries ++ [e])).poolingSimulation.rtcTotal =
        (calculateSummary entries).poolingSimulation.rtcTotal ∧
    (calculateSummary (entries ++ [e])).poolingSimulation.nodes =
        (calculateSummary entries).poolingSimulation.nodes ++
          (if entries = [] then sinkNodes else []) ∧
    (calculateSummary (entries ++ [e])).currencyTotals =
        ctEntry (calculateSummary entries).currencyTotals e.currencies := by
  refine ⟨?_, ?_, ?_, ?_, ?_, ?_⟩
  · rw [calculateSummary, calculateSummary, cs_convTotals, cs_convTotals,
      aggConv_append_unknown _ _ h1 h2]
  · rw [calculateSummary, calculateSummary, cs_rtcMetrics, cs_rtcMetrics, baseMetrics,
      baseMetrics, aggConv_append_unknown _ _ h1 h2, List.foldl_append, List.foldl_cons,
      List.foldl_nil, metricsEntryStep_of_unknown _ _ h1 h2]
  · rw [calculateSummary, calculateSummary, cs_links, cs_links, List.flatMap_append]
    simp [entryLinksF_of_unknown _ _ h1 h2]
  · rw [calculateSummary, calculateSummary, cs_rtcTotal, cs_rtcTotal, List.foldl_append,
      List.foldl_cons, List.foldl_nil, rtcTotalEntryStep_of_unknown _ _ h1 h2]
  · by_cases he : entries = []
    · subst he
      rw [if_pos rfl, List.nil_append, calculateSummary, calculateSummary,
        cs_nodes _ _ (by simp), List.foldl_cons, List.foldl_nil,
        nodesEntryStep_of_unknown _ _ h1 h2]
      rfl
    · rw [if_neg he, List.append_nil, calculateSummary, calculateSummary,
        cs_nodes _ _ (by simp), cs_nodes _ _ he, List.foldl_append, List.foldl_cons,
        List.foldl_nil, nodesEntryStep_of_unknown _ _ h1 h2]
  · rw [calculateSummary, calculateSummary, cs_currencyTotals, cs_currencyTotals,
      contributingPositions_append _ _ h1, List.foldl_append, ctEntry_eq_filter_foldl]

/-- C10: for a valid entry with a known country, the convertibility-category
totals accumulate the parsed cash and borrowing amounts of ALL of the entry's
positions, including positions with an empty currencyCode, while those same
empty-code positions are filtered out of the currencyTotals fold. -/
theorem claim_C10_conv_counts_empty_codes (entries : List ClientEntry) (e : ClientEntry)
    (cat : ConvertibilityCategory) (h1 : ¬ skipEntry e)
    (h2 : currencyConvertibility e.operatingCountry = some cat) :
    ((calculateSummary (entries ++ [e])).convertibilityTotals.get cat).totalCash =
        ((calculateSummary entries).convertibilityTotals.get cat).totalCash +
          (e.currencies.map (fun p => parseNum p.cashAmount)).sum ∧
    ((calculateSummary (entries ++ [e])).convertibilityTotals.get cat).totalBorrowing =
        ((calculateSummary entries).convertibilityTotals.get cat).totalBorrowing +
          (e.currencies.map (fun p => parseNum p.borrowingAmount)).sum ∧
    (calculateSummary (entries ++ [e])).currencyTotals =
        (e.currencies.filter (fun p => !(p.currencyCode == ""))).foldl ctUpdate
          ((calculateSummary entries).currencyTotals) := by
  have hconv : aggConvTotals (entries ++ [e]) = convEntry (aggConvTotals entries) cat e := by
    rw [aggConvTotals, List.foldl_append, List.foldl_cons, List.foldl_nil, ← aggConvTotals]
    unfold convEntryStep
    rw [if_neg h1, h2]
  refine ⟨?_, ?_, ?_⟩
  · rw [calculateSummary, calculateSummary, cs_convTotals, cs_convTotals, hconv,
      convEntry_totalCash]
  · rw [calculateSummary, calculateSummary, cs_convTotals, cs_convTotals, hconv,
      convEntry_totalBorrowing]
  · rw [calculateSummary, calculateSummary, cs_currencyTotals, cs_currencyTotals,
      contributingPositions_append _ _ h1, List.foldl_append]

/-- C9 witness: the unknown-country theorem applied to one concrete entry
operating in France. -/
theorem claim_C9_witness :
    (¬ skipEntry unknownCountryEntry) ∧
    currencyConvertibility unknownCountryEntry.operatingCountry = none ∧
    ((calculateSummary ([] ++ [unknownCountryEntry])).convertibilityTotals =
        (calculateSummary []).convertibilityTotals ∧
      (calculateSummary ([] ++ [unknownCountryEntry])).rtcMetrics =
        (calculateSummary []).rtcMetrics ∧
      (calculateSummary ([] ++ [unknownCountryEntry])).poolingSimulation.links =
        (calculateSummary []).poolingSimulation.links ∧
      (calculateSummary ([] ++ [unknownCountryEntry])).poolingSimulation.rtcTotal =
        (calculateSummary []).poolingSimulation.rtcTotal ∧
      (calculateSummary ([] ++ [unknownCountryEntry])).poolingSimulation.nodes =
        (calculateSummary []).poolingSimulation.nodes ++
          (if ([] : List ClientEntry) = [] then sinkNodes else []) ∧
      (calculateSummary ([] ++ [unknownCountryEntry])).currencyTotals =
        ctEntry (calculateSummary []).currencyTotals unknownCountryEntry.currencies) := by
  have h1 : ¬ skipEntry unknownCountryEntry := by decide
  have h2 : currencyConvertibility unknownCountryEntry.operatingCountry = none := by decide
  exact ⟨h1, h2, claim_C9_unknown_country [] unknownCountryEntry h1 h2⟩

/-- C10 witness: the known-country theorem applied to one concrete China entry
holding an empty-currency-code position. -/
theorem claim_C10_witness :
    (¬ skipEntry emptyCodeEntry) ∧
    currencyConvertibility emptyCodeEntry.operatingCountry =
      some ConvertibilityCategory.restricted ∧
    (((calculateSummary ([] ++ [emptyCodeEntry])).convertibilityTotals.get
          ConvertibilityCategory.restricted).totalCash =
        ((calculateSummary []).convertibilityTotals.get
          ConvertibilityCategory.restricted).totalCash +
          (emptyCodeEntry.currencies.map (fun p => parseNum p.cashAmount)).sum ∧
      ((calculateSummary ([] ++ [emptyCodeEntry])).convertibilityTotals.get
          ConvertibilityCategory.restricted).totalBorrowing =
        ((calculateSummary []).convertibilityTotals.get
          ConvertibilityCategory.restricted).totalBorrowing +
          (emptyCodeEntry.currencies.map (fun p => parseNum p.borrowingAmount)).sum ∧
      (calculateSummary ([] ++ [emptyCodeEntry])).currencyTotals =
        (emptyCodeEntry.currencies.filter (fun p => !(p.currencyCode == ""))).foldl ctUpdate
          ((calculateSummary []).currencyTotals)) := by
  have h1 : ¬ skipEntry emptyCodeEntry := by decide
  have h2 : currencyConvertibility emptyCodeEntry.operatingCountry =
      some ConvertibilityCategory.restricted := by decide
  exact ⟨h1, h2,
    claim_C10_conv_counts_empty_codes [] emptyCodeEntry ConvertibilityCategory.restricted h1 h2⟩

/-! ### Helper lemmas: routing of one position -/

theorem entryLinksF_of_known (fl : JsNum → JsNum) (e : ClientEntry)
    (cat : ConvertibilityCategory) (h1 : ¬ skipEntry e)
    (h2 : currencyConvertibility e.operatingCountry = some cat) :
    entryLinksF fl e = e.currencies.filterMap (posLinkF fl e.operatingCountry cat) := by
  unfold entryLinksF
  rw [if_neg h1, h2]

theorem posLinkF_claim (country : String) (cat : ConvertibilityCategory) (p : CurrencyEntry)
    (q : ℚ) (hq : p.cashAmount = some q) :
    posLinkF jsMax01 country cat p =
      if 0 < q then some (claimLink country cat p q) else none := by
  unfold posLinkF
  rw [hq]
  by_cases h0 : q ≤ 0
  · rw [if_pos (show jsLeZero (some q) = true by simp [jsLeZero, h0]),
      if_neg (not_lt.mpr h0)]
  · rw [if_neg (show ¬ jsLeZero (some q) = true by simp [jsLeZero, h0]),
      if_pos (lt_of_not_le h0)]
    cases cat <;> rfl

set_option maxHeartbeats 2000000 in
/-- C2 counterexample: the claim states that for a partially convertible
country the link's convertedValue equals cashAmount times the FX rate.  For a
Malaysia entry with cashAmount 0.2 MYR the product 0.2 * 0.21 = 0.042 is below
the visualization floor, and the emitted convertedValue is 0.1, not the
product: the code stores Math.max(0.1, cashAmount * rate) on line 690. -/
theorem claim_C2_counterexample :
    (calculateSummary [malaysiaSmallEntry]).poolingSimulation.links =
      [{ source := "Malaysia", target := "RTC", value := some 0.2,
         convertedValue := some (some 0.1), currency := "MYR" }] ∧
    ¬ ((0.1 : ℚ) = 0.2 * jsOrOne (fxRates "MYR" "USD")) := by
  norm_num +decide [calculateSummary, calculateSummaryF, emptySummary, emptyConvTotals,
    processEntry1, processEntry2F, processPos2F, skipEntry, ctEntry, ctUpdate, ctFresh, ctBump,
    countrySummaryOf, currencySummaryOf, convEntry, convAddAmounts, ConvertibilityTotals.get,
    ConvertibilityTotals.update, currencyConvertibility, poolingRules, fxRates, jsOrOne, jsAdd,
    jsMulQ, jsLeZero, jsMax01, parseNum, addCountryNode, sinkNodes, malaysiaSmallEntry]

/-- C2 (amended): for every valid entry with a known country, each currency
position with a positive numeric cashAmount produces exactly one link, with
target Restricted for a Restricted-category country and target RTC otherwise,
value max(0.1, cashAmount), no convertedValue except for a partially
convertible country, whose convertedValue is max(0.1, cashAmount times the FX
rate to the rule's target currency, the rate defaulting to 1 for a missing
pair). -/
theorem claim_C2_routing (entries : List ClientEntry) (e : ClientEntry)
    (cat : ConvertibilityCategory) (h1 : ¬ skipEntry e)
    (h2 : currencyConvertibility e.operatingCountry = some cat)
    (h3 : ∀ p ∈ e.currencies, p.cashAmount.isSome = true) :
    (calculateSummary (entries ++ [e])).poolingSimulation.links =
      (calculateSummary entries).poolingSimulation.links ++
        claimEntryLinks e.operatingCountry cat e.currencies := by
  rw [calculateSummary, calculateSummary, cs_links, cs_links, List.flatMap_append]
  congr 1
  rw [List.flatMap_cons, List.flatMap_nil, List.append_nil,
    entryLinksF_of_known _ _ _ h1 h2, claimEntryLinks]
  apply List.filterMap_congr
  intro p hp
  obtain ⟨q, hq⟩ := Option.isSome_iff_exists.mp (h3 p hp)
  rw [posLinkF_claim _ _ _ q hq, hq]

/-- C2 witness: the routing theorem applied to the Malaysia scenario entry with
cashAmount 1,000,000, whose single link carries convertedValue 210,000. -/
theorem claim_C2_witness :
    (¬ skipEntry malaysiaScenarioEntry) ∧
    currencyConvertibility malaysiaScenarioEntry.operatingCountry =
      some ConvertibilityCategory.partiallyConvertible ∧
    (∀ p ∈ malaysiaScenarioEntry.currencies, p.cashAmount.isSome = true) ∧
    (calculateSummary ([] ++ [malaysiaScenarioEntry])).poolingSimulation.links =
      (calculateSummary []).poolingSimulation.links ++
        claimEntryLinks malaysiaScenarioEntry.operatingCountry
          ConvertibilityCategory.partiallyConvertible malaysiaScenarioEntry.currencies := by
  have h1 : ¬ skipEntry malaysiaScenarioEntry := by decide
  have h2 : currencyConvertibility malaysiaScenarioEntry.operatingCountry =
      some ConvertibilityCategory.partiallyConvertible := by decide
  have h3 : ∀ p ∈ malaysiaScenarioEntry.currencies, p.cashAmount.isSome = true := by decide
  exact ⟨h1, h2, h3,
    claim_C2_routing [] malaysiaScenarioEntry ConvertibilityCategory.partiallyConvertible
      h1 h2 h3⟩

/-- C3: for numeric inputs, every emitted link has value at least 0.1 and, when
a convertedValue is present, convertedValue at least 0.1; and the floor never
reaches the accumulated outputs: running the engine with the floor replaced by
the identity yields the same rtcMetrics, convertibilityTotals and rtcTotal. -/
theorem claim_C3_floor_invariant (entries : List ClientEntry)
    (h : ∀ e ∈ entries, ∀ p ∈ e.currencies, p.cashAmount.isSome = true) :
    (∀ l ∈ (calculateSummary entries).poolingSimulation.links,
        (∃ q : ℚ, l.value = some q ∧ 0.1 ≤ q) ∧
        (∀ cv, l.convertedValue = some cv → ∃ q : ℚ, cv = some q ∧ 0.1 ≤ q)) ∧
    (calculateSummaryF (fun x => x) entries).rtcMetrics =
      (calculateSummary entries).rtcMetrics ∧
    (calculateSummaryF (fun x => x) entries).convertibilityTotals =
      (calculateSummary entries).convertibilityTotals ∧
    (calculateSummaryF (fun x => x) entries).poolingSimulation.rtcTotal =
      (calculateSummary entries).poolingSimulation.rtcTotal := by
  refine ⟨?_, ?_, ?_, ?_⟩
  · intro l hl
    rw [calculateSummary, cs_links] at hl
    obtain ⟨e, he, hle⟩ := List.mem_flatMap.mp hl
    by_cases hs : skipEntry e
    · unfold entryLinksF at hle
      rw [if_pos hs] at hle
      exact absurd hle (List.not_mem_nil l)
    · unfold entryLinksF at hle
      rw [if_neg hs] at hle
      cases hc : currencyConvertibility e.operatingCountry with
      | none =>
          rw [hc] at hle
          exact absurd hle (List.not_mem_nil l)
      | some cat =>
          rw [hc] at hle
          obtain ⟨p, hp, hpl⟩ := List.mem_filterMap.mp hle
          obtain ⟨q, hq⟩ := Option.isSome_iff_exists.mp (h e he p hp)
          rw [posLinkF_claim _ _ _ q hq] at hpl
          by_cases h0 : 0 < q
          · rw [if_pos h0] at hpl
            have hl2 : claimLink e.operatingCountry cat p q = l := Option.some.inj hpl
            rw [← hl2]
            constructor
            · cases cat <;> exact ⟨max 0.1 q, rfl, le_max_left _ _⟩
            · intro cv hcv
              cases cat with
              | restricted => exact absurd hcv (by simp [claimLink])
              | partiallyConvertible =>
                  refine ⟨max 0.1 (q * jsOrOne (fxRates p.currencyCode
                    ((poolingRules ConvertibilityCategory.partiallyConvertible
                      ).targetCurrency.getD "USD"))), ?_, le_max_left _ _⟩
                  have : some (max 0.1 (q * jsOrOne (fxRates p.currencyCode
                      ((poolingRules ConvertibilityCategory.partiallyConvertible
                        ).targetCurrency.getD "USD")))) = cv := Option.some.inj hcv
                  rw [← this]
              | freelyConvertible => exact absurd hcv (by simp [claimLink])
          · rw [if_neg h0] at hpl
            exact absurd hpl (by simp)
  · rw [calculateSummary, cs_rtcMetrics, cs_rtcMetrics]
  · rw [calculateSummary, cs_convTotals, cs_convTotals]
  · rw [calculateSummary, cs_rtcTotal, cs_rtcTotal]

/-- C3 witness: the floor-invariance theorem applied to the concrete Malaysia
scenario entry. -/
theorem claim_C3_witness :
    (∀ e ∈ [malaysiaScenarioEntry], ∀ p ∈ e.currencies, p.cashAmount.isSome = true) ∧
    ((∀ l ∈ (calculateSummary [malaysiaScenarioEntry]).poolingSimulation.links,
        (∃ q : ℚ, l.value = some q ∧ 0.1 ≤ q) ∧
        (∀ cv, l.convertedValue = some cv → ∃ q : ℚ, cv = some q ∧ 0.1 ≤ q)) ∧
      (calculateSummaryF (fun x => x) [malaysiaScenarioEntry]).rtcMetrics =
        (calculateSummary [malaysiaScenarioEntry]).rtcMetrics ∧
      (calculateSummaryF (fun x => x) [malaysiaScenarioEntry]).convertibilityTotals =
        (calculateSummary [malaysiaScenarioEntry]).convertibilityTotals ∧
      (calculateSummaryF (fun x => x) [malaysiaScenarioEntry]).poolingSimulation.rtcTotal =
        (calculateSummary [malaysiaScenarioEntry]).poolingSimulation.rtcTotal) := by
  have h : ∀ e ∈ [malaysiaScenarioEntry], ∀ p ∈ e.currencies, p.cashAmount.isSome = true := by
    decide
  exact ⟨h, claim_C3_floor_invariant [malaysiaScenarioEntry] h⟩

set_option maxHeartbeats 2000000 in
/-- C8 counterexample: the claim states that a position with a non-numeric
cashAmount contributes nothing to any link or metric.  On a China entry whose
only position has a non-numeric cashAmount, the pooling pass (which uses the
raw cashAmount of line 665 without parsing) emits a link whose value is
non-numeric (NaN) and turns rtcMetrics.restrictedFunds into NaN, because the
guard cashAmount <= 0 of line 666 is false for NaN. -/
theorem claim_C8_counterexample :
    (calculateSummary [nanCashEntry]).poolingSimulation.links =
      [{ source := "China", target := "Restricted", value := none, convertedValue := none,
         currency := "CNY" }] ∧
    (calculateSummary [nanCashEntry]).rtcMetrics.restrictedFunds = none := by
  norm_num +decide [calculateSummary, calculateSummaryF, emptySummary, emptyConvTotals,
    processEntry1, processEntry2F, processPos2F, skipEntry, ctEntry, ctUpdate, ctFresh, ctBump,
    countrySummaryOf, currencySummaryOf, convEntry, convAddAmounts, ConvertibilityTotals.get,
    ConvertibilityTotals.update, currencyConvertibility, poolingRules, fxRates, jsOrOne, jsAdd,
    jsMulQ, jsLeZero, jsMax01, parseNum, addCountryNode, sinkNodes, nanCashEntry]

/-- C8 (amended): non-numeric cash, borrowing and rate fields are treated as
zero by the aggregation pass (clients, currencyTotals and convertibilityTotals
are unchanged when every non-numeric field is replaced by 0), but the pooling
pass does not parse cashAmount: a position with a non-numeric cashAmount
passes the guard, emits one link whose value (and, for a partially convertible
country, convertedValue) is non-numeric, and turns the affected rtc metric
into NaN; no error or exception arises in either pass. -/
theorem claim_C8_nan_in_pooling :
    (∀ entries : List ClientEntry,
        (calculateSummary (numerize entries)).clients = (calculateSummary entries).clients ∧
        (calculateSummary (numerize entries)).currencyTotals =
          (calculateSummary entries).currencyTotals ∧
        (calculateSummary (numerize entries)).convertibilityTotals =
          (calculateSummary entries).convertibilityTotals) ∧
    (∀ (country : String) (cat : ConvertibilityCategory) (st : PoolState) (p : CurrencyEntry),
        p.cashAmount = none →
        (processPos2F jsMax01 country cat st p).links =
          st.links ++
            [match cat with
             | .restricted =>
                 { source := country, target := "Restricted", value := none,
                   convertedValue := none, currency := p.currencyCode }
             | .partiallyConvertible =>
                 { source := country, target := "RTC", value := none,
                   convertedValue := some none, currency := p.currencyCode }
             | .freelyConvertible =>
                 { source := country, target := "RTC", value := none,
                   convertedValue := none, currency := p.currencyCode }] ∧
        (processPos2F jsMax01 country cat st p).rtcMetrics =
          (match cat with
           | .restricted => { st.rtcMetrics with restrictedFunds := none }
           | .partiallyConvertible => { st.rtcMetrics with pendingConversion := none }
           | .freelyConvertible => { st.rtcMetrics with potentialUpstreamToRTC := none })) := by
  constructor
  · intro entries
    have hfold : (numerize entries).foldl processEntry1 emptySummary =
        entries.foldl processEntry1 emptySummary := foldl1_numerize entries emptySummary
    refine ⟨?_, ?_, ?_⟩
    · rw [calculateSummary, calculateSummary, cs_clients, cs_clients, hfold]
    · rw [calculateSummary, calculateSummary, cs_currencyTotals_agg, cs_currencyTotals_agg,
        hfold]
    · rw [calculateSummary, calculateSummary, cs_convTotals_agg, cs_convTotals_agg, hfold]
  · intro country cat st p hp
    constructor
    · unfold processPos2F
      rw [hp]
      cases cat <;> simp [jsLeZero, jsMax01, jsMulQ, poolingRules]
    · unfold processPos2F
      rw [hp]
      cases cat <;> simp [jsLeZero, jsMax01, jsMulQ, poolingRules, jsAdd_none_right]

/-- C8 witness: the amended theorem applied to the concrete China entry with a
non-numeric cashAmount and to one concrete pooling state. -/
theorem claim_C8_witness :
    ((calculateSummary (numerize [nanCashEntry])).clients =
        (calculateSummary [nanCashEntry]).clients ∧
      (calculateSummary (numerize [nanCashEntry])).currencyTotals =
        (calculateSummary [nanCashEntry]).currencyTotals ∧
      (calculateSummary (numerize [nanCashEntry])).convertibilityTotals =
        (calculateSummary [nanCashEntry]).convertibilityTotals) ∧
    (⟨"CNY", none, some 0, some 0, some 0, BorrowingTenor.shortTerm⟩ :
        CurrencyEntry).cashAmount = none ∧
    ((processPos2F jsMax01 "China" ConvertibilityCategory.restricted ⟨[], ⟨some 0, some 0, some 0⟩,
          some 0⟩ ⟨"CNY", none, some 0, some 0, some 0, BorrowingTenor.shortTerm⟩).links =
        ([] : List PoolingLink) ++
          [{ source := "China", target := "Restricted", value := none, convertedValue := none,
             currency := "CNY" }] ∧
      (processPos2F jsMax01 "China" ConvertibilityCategory.restricted ⟨[], ⟨some 0, some 0, some 0⟩,
          some 0⟩ ⟨"CNY", none, some 0, some 0, some 0, BorrowingTenor.shortTerm⟩).rtcMetrics =
        { (⟨some 0, some 0, some 0⟩ : RTCMetrics) with restrictedFunds := none }) := by
  refine ⟨claim_C8_nan_in_pooling.1 [nanCashEntry], rfl, ?_⟩
  exact claim_C8_nan_in_pooling.2 "China" ConvertibilityCategory.restricted
    ⟨[], ⟨some 0, some 0, some 0⟩, some 0⟩
    ⟨"CNY", none, some 0, some 0, some 0, BorrowingTenor.shortTerm⟩ rfl
